import Mathlib

/-!
# Sales call coach front end: the client state machine of `frontend/src/App.jsx`

A shallow embedding of the stateful logic of the `App` component: the
connectivity probe `checkBackend`, the upload handler `analyzeCall` with its
response normalisation, the file picker handler `handleFileChange`, and the
`disabled` gate of the analyse button.

JavaScript values are modelled by `JSValue`.  Text is a Lean `String`
(well-formed Unicode), a number is a rational (the finite doubles are
rationals; the two zeros are identified, both are falsy).  Texts that the
JavaScript engine chooses (number formatting, the messages of the `TypeError`s
it throws) are parameters, gathered in `Engine`.  A thrown exception is
modelled by `Except.error` carrying the `message` of the thrown error.
-/

namespace SalesApp

/-! ## JavaScript values -/

/-- A JavaScript value as `response.json()` can produce it, plus `undefined`
(the result of reading a property that does not exist). An object is the list
of its own properties. -/
inductive JSValue where
  | undefined
  | null
  | bool (b : Bool)
  | num (n : Rat)
  | str (s : String)
  | arr (items : List JSValue)
  | obj (fields : List (String × JSValue))

/-- Texts fixed by the JavaScript engine and not by the program. -/
structure Engine where
  /-- `String(n)` for a number `n`. -/
  numberToString : Rat → String
  /-- Message of the `TypeError` thrown when property `key` of `null` or
  `undefined` is read. -/
  nullishReadMessage : JSValue → String → String
  /-- Message of the `TypeError` thrown when an object has no primitive value. -/
  toPrimitiveMessage : String

/-- Own property lookup in the property list of an object. -/
def lookup (key : String) : List (String × JSValue) → Option JSValue
  | [] => none
  | (k, v) :: rest => if k = key then some v else lookup key rest

/-- The operator `typeof v`. -/
def typeof : JSValue → String
  | .undefined => "undefined"
  | .null => "object"
  | .bool _ => "boolean"
  | .num _ => "number"
  | .str _ => "string"
  | .arr _ => "object"
  | .obj _ => "object"

/-- The abstract operation ToBoolean: the falsy values are `undefined`, `null`,
`false`, zero and the empty text. -/
def truthy : JSValue → Bool
  | .undefined => false
  | .null => false
  | .bool b => b
  | .num n => decide (n ≠ 0)
  | .str s => decide (s ≠ "")
  | .arr _ => true
  | .obj _ => true

/-- The operator `a || b` (the right operand is a constant wherever the source
uses it, so it is passed evaluated). -/
def jsOr (a b : JSValue) : JSValue :=
  if truthy a then a else b

/-- The property read `v.key`, for a key that no built-in prototype defines and
that is not an index or `length` (every key the source reads is such a key):
reading from `null` or `undefined` throws, an object yields its own property or
`undefined`, every other value yields `undefined`. -/
def getProp (E : Engine) (v : JSValue) (key : String) : Except String JSValue :=
  match v with
  | .undefined => .error (E.nullishReadMessage .undefined key)
  | .null => .error (E.nullishReadMessage .null key)
  | .obj fields =>
    match lookup key fields with
    | some x => .ok x
    | none => .ok .undefined
  | _ => .ok .undefined

/-- The optional read `v?.key`: `undefined` when `v` is `null` or `undefined`,
and `v.key` otherwise. -/
def getPropOpt (E : Engine) (v : JSValue) (key : String) : Except String JSValue :=
  match v with
  | .undefined => .ok .undefined
  | .null => .ok .undefined
  | _ => getProp E v key

mutual
/-- The abstract operation ToString. An array converts through
`Array.prototype.join` with a comma; a plain object converts to
`[object Object]` unless it has an own property `toString`, which, coming from
JSON, is not callable, so that no primitive value is found and a `TypeError`
is thrown. -/
def toStr (E : Engine) : JSValue → Except String String
  | .undefined => .ok "undefined"
  | .null => .ok "null"
  | .bool b => .ok (if b then "true" else "false")
  | .num n => .ok (E.numberToString n)
  | .str s => .ok s
  | .arr items => joinLoop E "," items true ""
  | .obj fields =>
    match lookup "toString" fields with
    | some _ => .error E.toPrimitiveMessage
    | none => .ok "[object Object]"
/-- The loop of `Array.prototype.join`: `R` is the text built so far, `first`
tells whether the next element is element 0 (no separator before it). An
element that is `undefined` or `null` contributes the empty text. -/
def joinLoop (E : Engine) (sep : String) : List JSValue → Bool → String → Except String String
  | [], _, R => .ok R
  | x :: rest, first, R =>
    let R1 := if first then R else R ++ sep
    match x with
    | .undefined => joinLoop E sep rest false R1
    | .null => joinLoop E sep rest false R1
    | y =>
      match toStr E y with
      | .error e => .error e
      | .ok next => joinLoop E sep rest false (R1 ++ next)
end

/-! ## Response normalisation (the argument of `setAnalysis`) -/

/-- The value handed to `setAnalysis`. The first five fields hold whatever
truthy value the response carried (or the default), the last four hold text. -/
structure Analysis where
  transcript : JSValue
  timestamp : JSValue
  filename : JSValue
  filesize : JSValue
  overall_score : JSValue
  what_went_well : JSValue
  improvements : JSValue
  missed_opportunities : JSValue
  next_actions : JSValue

/-- The read `data.executive_summary?.key`. -/
def summaryRaw (E : Engine) (data : JSValue) (key : String) : Except String JSValue :=
  match getProp E data "executive_summary" with
  | .error e => .error e
  | .ok es => getPropOpt E es key

/-- The conditional
`Array.isArray(v) ? v.join('\n') : typeof v === 'string' ? v : fallback`. -/
def summaryText (E : Engine) (v : JSValue) (fallback : String) : Except String JSValue :=
  match v with
  | .arr items =>
    match joinLoop E "\n" items true "" with
    | .error e => .error e
    | .ok text => .ok (.str text)
  | w => if typeof w = "string" then .ok w else .ok (.str fallback)

/-- One executive-summary entry of the object literal: the raw read followed by
the conditional. -/
def summaryField (E : Engine) (data : JSValue) (key fallback : String) : Except String JSValue :=
  match summaryRaw E data key with
  | .error e => .error e
  | .ok v => summaryText E v fallback

/-- The object literal passed to `setAnalysis`, its properties evaluated in
source order; the first property whose evaluation throws ends the evaluation. -/
def normalize (E : Engine) (data : JSValue) : Except String Analysis := do
  let transcript ← getProp E data "transcript"
  let timestamp ← getProp E data "timestamp"
  let filename ← getProp E data "filename"
  let filesize ← getProp E data "filesize"
  let score ← summaryRaw E data "overall_score"
  let well ← summaryField E data "what_went_well" "Good analysis complete"
  let improvements ← summaryField E data "improvements" "No issues detected"
  let missed ← summaryField E data "missed_opportunities" "None identified"
  let actions ← summaryField E data "recommended_actions" "Follow up recommended"
  pure {
    transcript := jsOr transcript (.str "No transcript")
    timestamp := jsOr timestamp (.str "")
    filename := jsOr filename (.str "Unknown")
    filesize := jsOr filesize (.num 0)
    overall_score := jsOr score (.num (13 / 2))
    what_went_well := well
    improvements := improvements
    missed_opportunities := missed
    next_actions := actions }

/-! ## Component state -/

/-- The values of `backendStatus`. -/
inductive BackendStatus where
  | checking
  | connected
  | disconnected
  deriving DecidableEq, Repr

/-- A file of the file picker: name, declared media type, size in bytes. -/
structure File where
  name : String
  type : String
  size : Nat
  deriving DecidableEq, Repr

/-- The five `useState` cells of `App`. -/
structure State where
  file : Option File
  loading : Bool
  analysis : Option Analysis
  error : String
  backendStatus : BackendStatus

/-- The initial values of the `useState` cells. -/
def initialState : State :=
  { file := none, loading := false, analysis := none, error := "", backendStatus := .checking }

/-! ## `checkBackend` -/

/-- How the probe request ends: `fetch` rejects (a network error, or the abort
fired by the 3000 ms timer), or it resolves with a response whose `ok` flag is
given. -/
inductive ProbeOutcome where
  | networkError
  | aborted
  | response (ok : Bool)
  deriving DecidableEq, Repr

/-- The function `checkBackend`: the `if (res.ok)` block has no `else`, the
`catch` block handles a rejected `fetch`. -/
def checkBackend (s : State) : ProbeOutcome → State
  | .response true => { s with backendStatus := .connected, error := "" }
  | .response false => s
  | .networkError => { s with backendStatus := .disconnected }
  | .aborted => { s with backendStatus := .disconnected }

/-! ## `analyzeCall` -/

/-- A response of the analyse request: the `ok` flag, the status code, and the
result of `response.json()` (the parsed value, or the message of the error it
rejects with). -/
structure Response where
  ok : Bool
  status : Nat
  json : Except String JSValue

/-- How the analyse request ends: `fetch` rejects with an error of the given
message, or resolves with a response. -/
inductive FetchOutcome where
  | rejected (message : String)
  | resolved (r : Response)

/-- The guard `!file || backendStatus !== 'connected'` of `analyzeCall`. -/
def analyzeGuard (s : State) : Bool :=
  s.file.isNone || decide (s.backendStatus ≠ .connected)

/-- The three setter calls before the request is sent. -/
def analyzeStart (s : State) : State :=
  { s with loading := true, error := "", analysis := none }

/-- The body of the `try` block once the request has ended: the value passed to
`setAnalysis`, or the message of the error thrown. -/
def analyzeTry (E : Engine) : FetchOutcome → Except String Analysis
  | .rejected message => .error message
  | .resolved r =>
    if !r.ok then .error ("HTTP " ++ toString r.status)
    else
      match r.json with
      | .error message => .error message
      | .ok data => normalize E data

/-- The end of `analyzeCall`, run on the state current when the request ends:
`setAnalysis` or the `catch` block, then the `finally` block. -/
def analyzeFinish (E : Engine) (s : State) (o : FetchOutcome) : State :=
  match analyzeTry E o with
  | .ok a => { s with analysis := some a, loading := false }
  | .error message => { s with error := "Analysis failed: " ++ message, loading := false }

/-- The function `analyzeCall`, run to completion with no other event in
between, on a request that ends with outcome `o`. -/
def analyzeCall (E : Engine) (s : State) (o : FetchOutcome) : State :=
  if analyzeGuard s then s else analyzeFinish E (analyzeStart s) o

/-- Whether a call of `analyzeCall` in state `s` sends a request. -/
def analyzeSendsRequest (s : State) : Bool :=
  !analyzeGuard s

/-! ## `handleFileChange` -/

/-- The method call `s.startsWith(p)`: the characters of `p` are the first
characters of `s`. -/
def startsWith (s p : String) : Bool :=
  List.isPrefixOf p.toList s.toList

/-- The function `handleFileChange`; the argument is `e.target.files[0]`,
`none` when the list is empty. -/
def handleFileChange (s : State) (selectedFile : Option File) : State :=
  match selectedFile with
  | none => s
  | some f =>
    if startsWith f.type "audio/" then { s with file := some f, analysis := none, error := "" }
    else s

/-! ## The page as a transition system -/

/-- The `disabled` attribute of the analyse button. -/
def buttonDisabled (s : State) : Bool :=
  s.file.isNone || s.loading || decide (s.backendStatus ≠ .connected)

/-- The component state together with the number of analyse requests that have
been sent and have not ended yet. -/
structure Page where
  ui : State
  pending : Nat

/-- What can happen to the page: a probe ends, the file picker changes, the
analyse button is clicked, an analyse request ends. -/
inductive Event where
  | probe (o : ProbeOutcome)
  | fileChange (selectedFile : Option File)
  | click
  | analysisDone (o : FetchOutcome)

/-- One transition. A click on a disabled button runs no handler; otherwise it
runs `analyzeCall` up to the request. An analyse request can only end when one
is pending. -/
def step (E : Engine) (p : Page) : Event → Page
  | .probe o => { p with ui := checkBackend p.ui o }
  | .fileChange f => { p with ui := handleFileChange p.ui f }
  | .click =>
    if buttonDisabled p.ui then p
    else if analyzeGuard p.ui then p
    else { ui := analyzeStart p.ui, pending := p.pending + 1 }
  | .analysisDone o =>
    if p.pending = 0 then p
    else { ui := analyzeFinish E p.ui o, pending := p.pending - 1 }

/-- The page after a sequence of events. -/
def run (E : Engine) (p : Page) (events : List Event) : Page :=
  events.foldl (step E) p

/-- The page when the component is mounted. -/
def initialPage : Page :=
  { ui := initialState, pending := 0 }

/-- An engine used to evaluate examples: integers print in decimal, the
message texts are those of V8. -/
def sampleEngine : Engine :=
  { numberToString := fun n => toString n
    nullishReadMessage := fun _ key => "Cannot read properties of null (reading '" ++ key ++ "')"
    toPrimitiveMessage := "Cannot convert object to primitive value" }

/-! ## Notions of the specification -/

/-- The items in their order with one newline between consecutive items. -/
def joinLines : List String → String
  | [] => ""
  | [a] => a
  | a :: b :: rest => a ++ "\n" ++ joinLines (b :: rest)

/-- The response carries no executive-summary field `key`: it is not an object
(`null` included), or it has no `executive_summary`, or its
`executive_summary` is not an object, or is an object without the property
`key`. -/
def FieldAbsent (data : JSValue) (key : String) : Prop :=
  match data with
  | .obj fields =>
    match lookup "executive_summary" fields with
    | none => True
    | some (.obj es) => lookup key es = none
    | some _ => True
  | _ => True

/-- The response is an object whose `executive_summary` is an object that has
the property `key`, with value `v`. -/
def SummaryHolds (data : JSValue) (key : String) (v : JSValue) : Prop :=
  ∃ fields es, data = .obj fields ∧
    lookup "executive_summary" fields = some (.obj es) ∧ lookup key es = some v

/-- A value that is neither a sequence nor a text: `null`, a boolean, a
number or an object. -/
def OtherType : JSValue → Prop
  | .null => True
  | .bool _ => True
  | .num _ => True
  | .obj _ => True
  | _ => False

mutual
/-- The value can be converted to text: it is not an object with an own
property `toString`, and if it is a sequence, each of its elements can be
converted to text. -/
def convertible : JSValue → Bool
  | .arr items => allConvertible items
  | .obj fields => (lookup "toString" fields).isNone
  | _ => true
/-- Every element of the sequence can be converted to text. -/
def allConvertible : List JSValue → Bool
  | [] => true
  | x :: rest => convertible x && allConvertible rest
end

/-- The four executive-summary fields that are normalised to text. -/
def summaryKeys : List String :=
  ["what_went_well", "improvements", "missed_opportunities", "recommended_actions"]

/-- The response is neither `null` nor `undefined`, and wherever one of the four
executive-summary fields holds a sequence, every element of the sequence can be
converted to text. Every response of the documented shape (each field a text
or a sequence of texts, or absent) is such a response. -/
def Normalizable (data : JSValue) : Prop :=
  data ≠ .null ∧ data ≠ .undefined ∧
    ∀ key ∈ summaryKeys, ∀ items, SummaryHolds data key (.arr items) →
      allConvertible items = true

/-- Whether the event is the end of an analyse request. -/
def isCompletion : Event → Bool
  | .analysisDone _ => true
  | _ => false

/-- The loading flag is set exactly while one request is pending. -/
def Balanced (p : Page) : Prop :=
  p.pending = if p.ui.loading then 1 else 0

/-! ## Sample inputs -/

/-- A response whose summary holds a sequence, an empty sequence, a text with a
newline in it, a number, and a score. -/
def sampleResponse : JSValue :=
  .obj [
    ("transcript", .str "Hello, thanks for taking the call."),
    ("filesize", .num 2048),
    ("executive_summary", .obj [
      ("overall_score", .num 8),
      ("what_went_well", .arr [.str "Good pacing", .str "Clear ask"]),
      ("improvements", .arr []),
      ("missed_opportunities", .str "Upsell\nReferral"),
      ("recommended_actions", .num 3)])]

/-- A response whose score is zero. -/
def scoreZeroResponse : JSValue :=
  .obj [("executive_summary", .obj [("overall_score", .num 0)])]

/-- A response whose first summary field is a sequence of texts and whose
second holds an object that has no text form. -/
def unconvertibleResponse : JSValue :=
  .obj [("executive_summary", .obj [
    ("what_went_well", .arr [.str "Good pacing"]),
    ("improvements", .arr [.obj [("toString", .num 1)]])])]

/-- An OK response with status 200 whose body parses to `data`. -/
def okResponse (data : JSValue) : Response :=
  { ok := true, status := 200, json := .ok data }

/-- A state in which a file is selected and the backend is reported connected. -/
def readyState : State :=
  { initialState with
    file := some { name := "call.mp3", type := "audio/mpeg", size := 2048 }
    backendStatus := .connected }

/-! ## Connectivity probe -/

/-- A rejected probe request (network error or abort) sets the status to
`disconnected` and changes nothing else. -/
theorem checkBackend_rejected (s : State) (o : ProbeOutcome)
    (h : o = .networkError ∨ o = .aborted) :
    checkBackend s o = { s with backendStatus := .disconnected } := by
  rcases h with h | h <;> subst h <;> rfl

/-- An OK answer sets the status to `connected` and clears the error. -/
theorem checkBackend_ok (s : State) :
    checkBackend s (.response true) = { s with backendStatus := .connected, error := "" } :=
  rfl

/-- C1, the code at the failing input: when the backend answers the probe with
a non-OK response, `checkBackend` leaves the state as it was, so a status that
was `connected` stays `connected` and does not become `disconnected`. -/
theorem checkBackend_nonOk_keeps_connected :
    checkBackend readyState (.response false) = readyState ∧
      (checkBackend readyState (.response false)).backendStatus = .connected ∧
      (checkBackend readyState (.response false)).backendStatus ≠ .disconnected := by
  refine ⟨rfl, rfl, ?_⟩
  decide

/-! ## Precondition guard of `analyzeCall` -/

theorem analyzeGuard_eq_true_iff (s : State) :
    analyzeGuard s = true ↔ (s.file = none ∨ s.backendStatus ≠ .connected) := by
  simp [analyzeGuard, Option.isNone_iff_eq_none]

theorem analyzeGuard_eq_false_iff (s : State) :
    analyzeGuard s = false ↔ (s.file ≠ none ∧ s.backendStatus = .connected) := by
  rw [← Bool.not_eq_true, analyzeGuard_eq_true_iff]
  constructor
  · intro h
    exact ⟨fun hf => h (Or.inl hf), by_contra fun hb => h (Or.inr hb)⟩
  · rintro ⟨hf, hb⟩ (h | h)
    · exact hf h
    · exact h hb

/-- C7: when no file is selected or the status is not `connected`, `analyzeCall`
sends no request and returns the state it was given, whatever the outcome a
request would have had. -/
theorem analyzeCall_precondition_noop (E : Engine) (s : State) (o : FetchOutcome)
    (h : s.file = none ∨ s.backendStatus ≠ .connected) :
    analyzeCall E s o = s ∧ analyzeSendsRequest s = false := by
  have hg : analyzeGuard s = true := (analyzeGuard_eq_true_iff s).mpr h
  simp [analyzeCall, analyzeSendsRequest, hg]

theorem analyzeCall_precondition_noop_witness :
    (initialState.file = none ∨ initialState.backendStatus ≠ .connected) ∧
      analyzeCall sampleEngine initialState (.rejected "Failed to fetch") = initialState ∧
      analyzeSendsRequest initialState = false :=
  ⟨Or.inl rfl,
    analyzeCall_precondition_noop sampleEngine initialState (.rejected "Failed to fetch")
      (Or.inl rfl)⟩

/-! ## Completion of `analyzeCall` -/

theorem analyzeCall_of_guard_false (E : Engine) (s : State) (o : FetchOutcome)
    (h : analyzeGuard s = false) :
    analyzeCall E s o = analyzeFinish E (analyzeStart s) o := by
  simp [analyzeCall, h]

theorem analyzeFinish_ok (E : Engine) (s : State) (o : FetchOutcome) (a : Analysis)
    (h : analyzeTry E o = .ok a) :
    analyzeFinish E s o = { s with analysis := some a, loading := false } := by
  simp [analyzeFinish, h]

theorem analyzeFinish_error (E : Engine) (s : State) (o : FetchOutcome) (m : String)
    (h : analyzeTry E o = .error m) :
    analyzeFinish E s o = { s with error := "Analysis failed: " ++ m, loading := false } := by
  simp [analyzeFinish, h]

/-- The error text written by the `catch` block is never empty. -/
theorem failure_text_ne_empty (m : String) : "Analysis failed: " ++ m ≠ "" := by
  intro h
  have hl := congrArg String.length h
  rw [String.length_append] at hl
  have h17 : "Analysis failed: ".length = 17 := by decide
  have h0 : "".length = 0 := by decide
  omega

/-- C8: when a file is selected and the status is `connected`, a non-OK
response with status code `n` leaves the error `Analysis failed: HTTP n`, a
null analysis and a false loading flag, and the final state does not depend on
the body of the response. -/
theorem analyzeCall_http_error (E : Engine) (s : State) (r : Response)
    (hpre : s.file ≠ none ∧ s.backendStatus = .connected) (hr : r.ok = false) :
    (analyzeCall E s (.resolved r)).error = "Analysis failed: HTTP " ++ toString r.status ∧
      (analyzeCall E s (.resolved r)).analysis = none ∧
      (analyzeCall E s (.resolved r)).loading = false ∧
      (∀ body : Except String JSValue,
        analyzeCall E s (.resolved { r with json := body }) = analyzeCall E s (.resolved r)) := by
  have hg : analyzeGuard s = false := (analyzeGuard_eq_false_iff s).mpr hpre
  have htry : ∀ body : Except String JSValue,
      analyzeTry E (.resolved { r with json := body }) = .error ("HTTP " ++ toString r.status) := by
    intro body
    simp [analyzeTry, hr]
  have htry0 : analyzeTry E (.resolved r) = .error ("HTTP " ++ toString r.status) := by
    simp [analyzeTry, hr]
  have htext : "Analysis failed: " ++ ("HTTP " ++ toString r.status)
      = "Analysis failed: HTTP " ++ toString r.status := by
    rw [← String.append_assoc]
    rfl
  refine ⟨?_, ?_, ?_, ?_⟩
  · rw [analyzeCall_of_guard_false E s _ hg, analyzeFinish_error E _ _ _ htry0, ← htext]
  · rw [analyzeCall_of_guard_false E s _ hg, analyzeFinish_error E _ _ _ htry0]
    rfl
  · rw [analyzeCall_of_guard_false E s _ hg, analyzeFinish_error E _ _ _ htry0]
  · intro body
    rw [analyzeCall_of_guard_false E s _ hg, analyzeCall_of_guard_false E s _ hg,
      analyzeFinish_error E _ _ _ htry0, analyzeFinish_error E _ _ _ (htry body)]

theorem analyzeCall_http_error_witness :
    (readyState.file ≠ none ∧ readyState.backendStatus = .connected) ∧
      (analyzeCall sampleEngine readyState
        (.resolved { ok := false, status := 500, json := .error "Unexpected token" })).error
        = "Analysis failed: HTTP 500" ∧
      (analyzeCall sampleEngine readyState
        (.resolved { ok := false, status := 500, json := .error "Unexpected token" })).analysis
        = none :=
  have hpre : readyState.file ≠ none ∧ readyState.backendStatus = .connected :=
    ⟨by simp [readyState], rfl⟩
  have h := analyzeCall_http_error sampleEngine readyState
    { ok := false, status := 500, json := .error "Unexpected token" } hpre rfl
  ⟨hpre, h.1, h.2.1⟩

/-! ## File selection -/

/-- The test `startsWith` holds exactly when the text is the given beginning
followed by some rest. -/
theorem startsWith_iff (s p : String) :
    startsWith s p = true ↔ ∃ rest : String, s = p ++ rest := by
  unfold startsWith
  rw [List.isPrefixOf_iff_prefix]
  constructor
  · rintro ⟨t, ht⟩
    refine ⟨String.mk t, ?_⟩
    apply String.ext
    simpa [String.toList] using ht.symm
  · rintro ⟨rest, rfl⟩
    exact ⟨rest.toList, by simp [String.toList]⟩

/-- C9: a file-selection event with no candidate, or with a candidate whose
declared type does not begin with `audio/`, leaves the whole state unchanged;
a candidate whose type begins with `audio/` becomes the selected file, and the
analysis is set to null and the error to the empty text, the other fields
being kept. -/
theorem handleFileChange_accepts_audio_only (s : State) (c : Option File) :
    ((c = none ∨ ∃ f, c = some f ∧ ¬ ∃ rest : String, f.type = "audio/" ++ rest) →
        handleFileChange s c = s) ∧
      (∀ f, c = some f → (∃ rest : String, f.type = "audio/" ++ rest) →
        handleFileChange s c = { s with file := some f, analysis := none, error := "" }) := by
  constructor
  · rintro (rfl | ⟨f, rfl, hf⟩)
    · rfl
    · have hs : startsWith f.type "audio/" = false := by
        rw [← Bool.not_eq_true, startsWith_iff]
        exact hf
      simp [handleFileChange, hs]
  · rintro f rfl hf
    have hs : startsWith f.type "audio/" = true := (startsWith_iff _ _).mpr hf
    simp [handleFileChange, hs]

theorem handleFileChange_accepts_audio_only_witness :
    handleFileChange readyState none = readyState ∧
      handleFileChange readyState (some { name := "clip.mp4", type := "video/mp4", size := 7 })
        = readyState ∧
      handleFileChange initialState (some { name := "a.wav", type := "audio/wav", size := 9 })
        = { initialState with
            file := some { name := "a.wav", type := "audio/wav", size := 9 }
            analysis := none
            error := "" } :=
  ⟨(handleFileChange_accepts_audio_only readyState none).1 (Or.inl rfl),
    (handleFileChange_accepts_audio_only readyState
      (some { name := "clip.mp4", type := "video/mp4", size := 7 })).1
      (Or.inr ⟨_, rfl, fun h => by
        have := (startsWith_iff "video/mp4" "audio/").mpr h
        revert this
        decide⟩),
    (handleFileChange_accepts_audio_only initialState
      (some { name := "a.wav", type := "audio/wav", size := 9 })).2 _ rfl ⟨"wav", by decide⟩⟩

/-! ## Requests in flight -/

theorem checkBackend_loading (s : State) (o : ProbeOutcome) :
    (checkBackend s o).loading = s.loading := by
  cases o with
  | networkError => rfl
  | aborted => rfl
  | response ok => cases ok <;> rfl

theorem handleFileChange_loading (s : State) (c : Option File) :
    (handleFileChange s c).loading = s.loading := by
  cases c with
  | none => rfl
  | some f =>
    simp only [handleFileChange]
    split <;> rfl

theorem analyzeFinish_loading (E : Engine) (s : State) (o : FetchOutcome) :
    (analyzeFinish E s o).loading = false := by
  unfold analyzeFinish
  split <;> rfl

theorem buttonDisabled_of_loading (s : State) (h : s.loading = true) :
    buttonDisabled s = true := by
  simp [buttonDisabled, h]

theorem buttonDisabled_of_guard (s : State) (h : analyzeGuard s = true) :
    buttonDisabled s = true := by
  simp only [analyzeGuard, Bool.or_eq_true] at h
  simp only [buttonDisabled, Bool.or_eq_true]
  rcases h with h | h
  · exact Or.inl (Or.inl h)
  · exact Or.inr h

theorem step_balanced (E : Engine) (p : Page) (e : Event) (h : Balanced p) :
    Balanced (step E p e) := by
  unfold Balanced at h ⊢
  cases e with
  | probe o => simpa [step, checkBackend_loading] using h
  | fileChange f => simpa [step, handleFileChange_loading] using h
  | click =>
    unfold step
    by_cases hd : buttonDisabled p.ui = true
    · simpa [hd] using h
    · by_cases hg : analyzeGuard p.ui = true
      · simpa [hd, hg] using h
      · have hl : p.ui.loading = false := by
          cases hload : p.ui.loading with
          | false => rfl
          | true => exact absurd (buttonDisabled_of_loading p.ui hload) hd
        rw [hl] at h
        simp [hd, hg, analyzeStart, h]
  | analysisDone o =>
    unfold step
    by_cases hp : p.pending = 0
    · simpa [hp] using h
    · have hone : p.pending = 1 := by
        cases hload : p.ui.loading with
        | false => rw [hload] at h; exact absurd h hp
        | true => rw [hload] at h; exact h
      simp [hp, analyzeFinish_loading, hone]

theorem run_balanced (E : Engine) (events : List Event) (p : Page) (h : Balanced p) :
    Balanced (run E p events) := by
  induction events generalizing p with
  | nil => exact h
  | cons e rest ih => exact ih (step E p e) (step_balanced E p e h)

/-- C10: in every state the page reaches from its initial state, at most one
analyse request is pending, one is pending exactly when the loading flag is
set, and a click on the analyse button while the loading flag is set, or while
the file or connectivity precondition fails, changes neither the state nor the
number of pending requests. -/
theorem at_most_one_request_in_flight (E : Engine) (events : List Event) :
    (run E initialPage events).pending ≤ 1 ∧
      ((run E initialPage events).pending = 1 ↔ (run E initialPage events).ui.loading = true) ∧
      ((run E initialPage events).ui.loading = true →
        step E (run E initialPage events) .click = run E initialPage events) ∧
      (analyzeGuard (run E initialPage events).ui = true →
        step E (run E initialPage events) .click = run E initialPage events) := by
  have hb : Balanced (run E initialPage events) := run_balanced E events initialPage rfl
  unfold Balanced at hb
  refine ⟨?_, ?_, ?_, ?_⟩
  · rw [hb]; split <;> omega
  · rw [hb]
    cases (run E initialPage events).ui.loading <;> simp
  · intro hl
    simp [step, buttonDisabled_of_loading _ hl]
  · intro hg
    simp [step, buttonDisabled_of_guard _ hg]

/-! ## Normalisation of the response -/

/-- What a finished evaluation of the object literal says about its entries. -/
theorem normalize_ok_fields (E : Engine) (data : JSValue) (r : Analysis)
    (h : normalize E data = .ok r) :
    (∃ score, summaryRaw E data "overall_score" = .ok score ∧
        r.overall_score = jsOr score (.num (13 / 2))) ∧
      summaryField E data "what_went_well" "Good analysis complete" = .ok r.what_went_well ∧
      summaryField E data "improvements" "No issues detected" = .ok r.improvements ∧
      summaryField E data "missed_opportunities" "None identified" = .ok r.missed_opportunities ∧
      summaryField E data "recommended_actions" "Follow up recommended" = .ok r.next_actions := by
  simp only [normalize, bind, Except.bind, pure, Except.pure] at h
  repeat' split at h
  all_goals cases h
  refine ⟨⟨_, ?_, rfl⟩, ?_, ?_, ?_, ?_⟩ <;> assumption

/-- Reading any property of a value other than `null` and `undefined` does not throw. -/
theorem getProp_ok (E : Engine) (data : JSValue) (key : String)
    (hn : data ≠ .null) (hu : data ≠ .undefined) :
    ∃ v, getProp E data key = .ok v := by
  cases data with
  | undefined => exact absurd rfl hu
  | null => exact absurd rfl hn
  | obj fields =>
    simp only [getProp]
    split <;> exact ⟨_, rfl⟩
  | bool b => exact ⟨_, rfl⟩
  | num n => exact ⟨_, rfl⟩
  | str s => exact ⟨_, rfl⟩
  | arr items => exact ⟨_, rfl⟩

theorem getPropOpt_ok (E : Engine) (v : JSValue) (key : String) :
    ∃ w, getPropOpt E v key = .ok w := by
  cases v with
  | undefined => exact ⟨_, rfl⟩
  | null => exact ⟨_, rfl⟩
  | obj fields =>
    simp only [getPropOpt, getProp]
    split <;> exact ⟨_, rfl⟩
  | bool b => exact ⟨_, rfl⟩
  | num n => exact ⟨_, rfl⟩
  | str s => exact ⟨_, rfl⟩
  | arr items => exact ⟨_, rfl⟩

theorem summaryRaw_ok (E : Engine) (data : JSValue) (key : String)
    (hn : data ≠ .null) (hu : data ≠ .undefined) :
    ∃ v, summaryRaw E data key = .ok v := by
  obtain ⟨es, hes⟩ := getProp_ok E data "executive_summary" hn hu
  obtain ⟨w, hw⟩ := getPropOpt_ok E es key
  exact ⟨w, by simp [summaryRaw, hes, hw]⟩

/-- The evaluation of the object literal runs through when the response is
neither `null` nor `undefined` and the four summary entries evaluate. -/
theorem normalize_returns (E : Engine) (data well imp missed actions : JSValue)
    (hn : data ≠ .null) (hu : data ≠ .undefined)
    (hw : summaryField E data "what_went_well" "Good analysis complete" = .ok well)
    (hi : summaryField E data "improvements" "No issues detected" = .ok imp)
    (hm : summaryField E data "missed_opportunities" "None identified" = .ok missed)
    (ha : summaryField E data "recommended_actions" "Follow up recommended" = .ok actions) :
    ∃ r, normalize E data = .ok r ∧ r.what_went_well = well ∧ r.improvements = imp ∧
      r.missed_opportunities = missed ∧ r.next_actions = actions := by
  obtain ⟨t, ht⟩ := getProp_ok E data "transcript" hn hu
  obtain ⟨ts, hts⟩ := getProp_ok E data "timestamp" hn hu
  obtain ⟨fn, hfn⟩ := getProp_ok E data "filename" hn hu
  obtain ⟨fs, hfs⟩ := getProp_ok E data "filesize" hn hu
  obtain ⟨sc, hsc⟩ := summaryRaw_ok E data "overall_score" hn hu
  refine ⟨{
    transcript := jsOr t (.str "No transcript")
    timestamp := jsOr ts (.str "")
    filename := jsOr fn (.str "Unknown")
    filesize := jsOr fs (.num 0)
    overall_score := jsOr sc (.num (13 / 2))
    what_went_well := well
    improvements := imp
    missed_opportunities := missed
    next_actions := actions }, ?_, rfl, rfl, rfl, rfl⟩
  simp only [normalize, bind, Except.bind, pure, Except.pure, ht, hts, hfn, hfs, hsc, hw, hi,
    hm, ha]
theorem joinLoop_text_rest (E : Engine) (sep : String) (items : List String) (R : String) :
    joinLoop E sep (items.map JSValue.str) false R
      = .ok (items.foldl (fun acc x => acc ++ sep ++ x) R) := by
  induction items generalizing R with
  | nil => simp [joinLoop]
  | cons a rest ih => simp [joinLoop, toStr, ih]

theorem foldl_append_left (sep p q : String) (items : List String) :
    items.foldl (fun acc x => acc ++ sep ++ x) (p ++ q)
      = p ++ items.foldl (fun acc x => acc ++ sep ++ x) q := by
  induction items generalizing q with
  | nil => rfl
  | cons a rest ih =>
    simp only [List.foldl_cons]
    rw [String.append_assoc p q sep, String.append_assoc p (q ++ sep) a, ih]

theorem joinLines_cons (a : String) (rest : List String) :
    joinLines (a :: rest) = rest.foldl (fun acc x => acc ++ "\n" ++ x) a := by
  induction rest generalizing a with
  | nil => rfl
  | cons b rest ih =>
    simp only [joinLines, List.foldl_cons]
    rw [ih b, foldl_append_left]

/-- The call `items.join('\n')` on an array of texts returns the texts in order
with one newline between consecutive texts. -/
theorem joinLoop_text (E : Engine) (items : List String) :
    joinLoop E "\n" (items.map JSValue.str) true "" = .ok (joinLines items) := by
  cases items with
  | nil => simp [joinLoop, joinLines]
  | cons a rest =>
    simp only [List.map_cons, joinLoop, toStr]
    rw [joinLoop_text_rest, joinLines_cons]
    simp
theorem summaryText_sequence (E : Engine) (items : List String) (fallback : String) :
    summaryText E (.arr (items.map JSValue.str)) fallback = .ok (.str (joinLines items)) := by
  simp [summaryText, joinLoop_text]

theorem summaryText_text (E : Engine) (s fallback : String) :
    summaryText E (.str s) fallback = .ok (.str s) := by
  simp [summaryText, typeof]

theorem summaryText_undefined (E : Engine) (fallback : String) :
    summaryText E .undefined fallback = .ok (.str fallback) := by
  simp [summaryText, typeof]

theorem summaryText_otherType (E : Engine) (v : JSValue) (fallback : String) (h : OtherType v) :
    summaryText E v fallback = .ok (.str fallback) := by
  cases v <;> simp [OtherType] at h <;> simp [summaryText, typeof]

theorem summaryRaw_of_absent (E : Engine) (data : JSValue) (key : String)
    (hn : data ≠ .null) (hu : data ≠ .undefined)
    (h : FieldAbsent data key) : summaryRaw E data key = .ok .undefined := by
  cases data with
  | undefined => exact absurd rfl hu
  | null => exact absurd rfl hn
  | bool b => rfl
  | num n => rfl
  | str s => rfl
  | arr items => rfl
  | obj fields =>
    simp only [FieldAbsent] at h
    simp only [summaryRaw, getProp]
    cases hl : lookup "executive_summary" fields with
    | none => rfl
    | some es =>
      rw [hl] at h
      cases es with
      | obj inner =>
        simp only at h
        simp [getPropOpt, getProp, h]
      | undefined => rfl
      | null => rfl
      | bool b => rfl
      | num n => rfl
      | str s => rfl
      | arr items => rfl

theorem summaryRaw_of_holds (E : Engine) (data : JSValue) (key : String) (v : JSValue)
    (h : SummaryHolds data key v) : summaryRaw E data key = .ok v := by
  obtain ⟨fields, es, rfl, hes, hv⟩ := h
  simp [summaryRaw, getProp, getPropOpt, hes, hv]

theorem ne_nullish_of_holds (data : JSValue) (key : String) (v : JSValue)
    (h : SummaryHolds data key v) : data ≠ .null ∧ data ≠ .undefined := by
  obtain ⟨fields, es, rfl, _, _⟩ := h
  exact ⟨fun hc => JSValue.noConfusion hc, fun hc => JSValue.noConfusion hc⟩

/-- A field is absent from the response or the response holds a value for it. -/
theorem absent_or_holds (data : JSValue) (key : String) :
    FieldAbsent data key ∨ ∃ v, SummaryHolds data key v := by
  cases data with
  | obj fields =>
    cases hl : lookup "executive_summary" fields with
    | none => left; simp [FieldAbsent, hl]
    | some es =>
      cases es with
      | obj inner =>
        cases hk : lookup key inner with
        | none => left; simp [FieldAbsent, hl, hk]
        | some v => right; exact ⟨v, fields, inner, rfl, hl, hk⟩
      | undefined => left; simp [FieldAbsent, hl]
      | null => left; simp [FieldAbsent, hl]
      | bool b => left; simp [FieldAbsent, hl]
      | num n => left; simp [FieldAbsent, hl]
      | str s => left; simp [FieldAbsent, hl]
      | arr items => left; simp [FieldAbsent, hl]
  | undefined => left; trivial
  | null => left; trivial
  | bool b => left; trivial
  | num n => left; trivial
  | str s => left; trivial
  | arr items => left; trivial

/-- An entry of the object literal is the conditional applied to the raw read,
and a finished evaluation stores that value. -/
theorem entry_of_raw (E : Engine) (data : JSValue) (key fallback : String) (v x : JSValue)
    (hraw : summaryRaw E data key = .ok v) (htext : summaryText E v fallback = .ok x) :
    summaryField E data key fallback = .ok x := by
  simp [summaryField, hraw, htext]
/-! ## Conversion to text -/

mutual
/-- The conversion of a value to text throws exactly when the value is not
convertible. -/
theorem toStr_toBool (E : Engine) : ∀ v : JSValue, (toStr E v).toBool = convertible v
  | .undefined => rfl
  | .null => rfl
  | .bool _ => rfl
  | .num _ => rfl
  | .str _ => rfl
  | .arr items => by
    simp only [toStr, convertible]
    exact joinLoop_toBool E "," items true ""
  | .obj fields => by
    simp only [toStr, convertible]
    cases lookup "toString" fields <;> rfl
/-- The loop of `join` throws exactly when some element is not convertible. -/
theorem joinLoop_toBool (E : Engine) (sep : String) :
    ∀ (items : List JSValue) (first : Bool) (R : String),
      (joinLoop E sep items first R).toBool = allConvertible items
  | [], _, _ => rfl
  | x :: rest, first, R => by
    have hx := toStr_toBool E x
    cases x with
    | undefined =>
      simp only [joinLoop, allConvertible, convertible, Bool.true_and]
      exact joinLoop_toBool E sep rest false _
    | null =>
      simp only [joinLoop, allConvertible, convertible, Bool.true_and]
      exact joinLoop_toBool E sep rest false _
    | bool b =>
      simp only [joinLoop, toStr, allConvertible, convertible, Bool.true_and]
      exact joinLoop_toBool E sep rest false _
    | num n =>
      simp only [joinLoop, toStr, allConvertible, convertible, Bool.true_and]
      exact joinLoop_toBool E sep rest false _
    | str s =>
      simp only [joinLoop, toStr, allConvertible, convertible, Bool.true_and]
      exact joinLoop_toBool E sep rest false _
    | arr inner =>
      simp only [joinLoop, allConvertible]
      cases h : toStr E (.arr inner) with
      | error e =>
        rw [h] at hx
        simp only [← hx]
        rfl
      | ok next =>
        rw [h] at hx
        simp only [← hx]
        simpa [Except.toBool] using joinLoop_toBool E sep rest false _
    | obj fields =>
      simp only [joinLoop, allConvertible]
      cases h : toStr E (.obj fields) with
      | error e =>
        rw [h] at hx
        simp only [← hx]
        rfl
      | ok next =>
        rw [h] at hx
        simp only [← hx]
        simpa [Except.toBool] using joinLoop_toBool E sep rest false _
end

theorem allConvertible_texts (items : List String) :
    allConvertible (items.map JSValue.str) = true := by
  induction items with
  | nil => rfl
  | cons a rest ih => simp [allConvertible, convertible, ih]

/-- The conditional evaluates exactly when the value, if it is a sequence, has
only convertible elements. -/
theorem summaryText_ok_iff (E : Engine) (v : JSValue) (fallback : String) :
    (∃ x, summaryText E v fallback = .ok x) ↔
      ∀ items, v = .arr items → allConvertible items = true := by
  cases v with
  | arr items =>
    have hb := joinLoop_toBool E "\n" items true ""
    simp only [summaryText]
    cases hj : joinLoop E "\n" items true "" with
    | error e =>
      rw [hj] at hb
      constructor
      · rintro ⟨x, hx⟩
        cases hx
      · intro h
        have := h items rfl
        rw [← hb] at this
        cases this
    | ok text =>
      rw [hj] at hb
      constructor
      · rintro _ items2 heq
        cases heq
        exact hb.symm
      · intro _
        exact ⟨_, rfl⟩
  | undefined => exact ⟨fun _ _ h => JSValue.noConfusion h, fun _ => ⟨_, rfl⟩⟩
  | null => exact ⟨fun _ _ h => JSValue.noConfusion h, fun _ => ⟨_, rfl⟩⟩
  | bool b => exact ⟨fun _ _ h => JSValue.noConfusion h, fun _ => ⟨_, rfl⟩⟩
  | num n => exact ⟨fun _ _ h => JSValue.noConfusion h, fun _ => ⟨_, rfl⟩⟩
  | str s => exact ⟨fun _ _ h => JSValue.noConfusion h, fun _ => ⟨_, rfl⟩⟩
  | obj fields => exact ⟨fun _ _ h => JSValue.noConfusion h, fun _ => ⟨_, rfl⟩⟩

/-- An entry evaluates exactly when the field, if the response holds a sequence
for it, has only convertible elements. -/
theorem summaryField_ok_iff (E : Engine) (data : JSValue) (key fallback : String)
    (hn : data ≠ .null) (hu : data ≠ .undefined) :
    (∃ x, summaryField E data key fallback = .ok x) ↔
      ∀ items, SummaryHolds data key (.arr items) → allConvertible items = true := by
  rcases absent_or_holds data key with habs | ⟨v, hv⟩
  · have hraw := summaryRaw_of_absent E data key hn hu habs
    constructor
    · intro _ items hitems
      have h2 := summaryRaw_of_holds E data key _ hitems
      rw [hraw] at h2
      cases h2
    · intro _
      exact ⟨_, entry_of_raw E data key fallback _ _ hraw (summaryText_undefined E _)⟩
  · have hraw := summaryRaw_of_holds E data key v hv
    have hfield : summaryField E data key fallback = summaryText E v fallback := by
      simp [summaryField, hraw]
    rw [hfield, summaryText_ok_iff]
    constructor
    · intro h items hitems
      have h2 := summaryRaw_of_holds E data key _ hitems
      rw [hraw] at h2
      exact h items (Except.ok.inj h2)
    · intro h items heq
      exact h items (heq ▸ hv)

theorem normalize_nullish (E : Engine) (data : JSValue)
    (h : data = .null ∨ data = .undefined) :
    normalize E data = .error (E.nullishReadMessage data "transcript") := by
  rcases h with rfl | rfl <;> rfl

/-- The evaluation of the object literal runs through exactly for the
normalizable responses. -/
theorem normalize_ok_iff (E : Engine) (data : JSValue) :
    (∃ a, normalize E data = .ok a) ↔ Normalizable data := by
  constructor
  · rintro ⟨a, ha⟩
    have hn : data ≠ .null := by
      intro hc
      rw [normalize_nullish E data (Or.inl hc)] at ha
      cases ha
    have hu : data ≠ .undefined := by
      intro hc
      rw [normalize_nullish E data (Or.inr hc)] at ha
      cases ha
    obtain ⟨_, hw, hi, hm, hact⟩ := normalize_ok_fields E data a ha
    refine ⟨hn, hu, ?_⟩
    intro key hkey
    simp only [summaryKeys, List.mem_cons, List.mem_singleton, List.not_mem_nil, or_false] at hkey
    rcases hkey with rfl | rfl | rfl | rfl
    · exact (summaryField_ok_iff E data _ _ hn hu).mp ⟨_, hw⟩
    · exact (summaryField_ok_iff E data _ _ hn hu).mp ⟨_, hi⟩
    · exact (summaryField_ok_iff E data _ _ hn hu).mp ⟨_, hm⟩
    · exact (summaryField_ok_iff E data _ _ hn hu).mp ⟨_, hact⟩
  · rintro ⟨hn, hu, hall⟩
    obtain ⟨w, hw⟩ := (summaryField_ok_iff E data "what_went_well" "Good analysis complete"
      hn hu).mpr (hall _ (by simp [summaryKeys]))
    obtain ⟨i, hi⟩ := (summaryField_ok_iff E data "improvements" "No issues detected"
      hn hu).mpr (hall _ (by simp [summaryKeys]))
    obtain ⟨m, hm⟩ := (summaryField_ok_iff E data "missed_opportunities" "None identified"
      hn hu).mpr (hall _ (by simp [summaryKeys]))
    obtain ⟨act, hact⟩ := (summaryField_ok_iff E data "recommended_actions"
      "Follow up recommended" hn hu).mpr (hall _ (by simp [summaryKeys]))
    obtain ⟨a, ha, _⟩ := normalize_returns E data w i m act hn hu hw hi hm hact
    exact ⟨a, ha⟩

/-- A response of the documented shape, in which every executive-summary field
that is present is a text or a sequence of texts, is normalizable. -/
theorem normalizable_of_documented_shape (data : JSValue)
    (hn : data ≠ .null) (hu : data ≠ .undefined)
    (hshape : ∀ key ∈ summaryKeys, ∀ v, SummaryHolds data key v →
      (∃ t : String, v = .str t) ∨ ∃ items : List String, v = .arr (items.map JSValue.str)) :
    Normalizable data := by
  refine ⟨hn, hu, ?_⟩
  intro key hkey items hitems
  rcases hshape key hkey _ hitems with ⟨t, ht⟩ | ⟨texts, htexts⟩
  · cases ht
  · cases htexts
    exact allConvertible_texts texts

/-! ## What `analyzeCall` stores for an OK response with a parsed body -/

theorem analyzeTry_ok_json (E : Engine) (resp : Response) (data : JSValue)
    (hok : resp.ok = true) (hjson : resp.json = .ok data) :
    analyzeTry E (.resolved resp) = normalize E data := by
  simp [analyzeTry, hok, hjson]

theorem stored_iff (E : Engine) (s : State) (resp : Response) (data : JSValue) (a : Analysis)
    (hpre : s.file ≠ none ∧ s.backendStatus = .connected)
    (hok : resp.ok = true) (hjson : resp.json = .ok data) :
    (analyzeCall E s (.resolved resp)).analysis = some a ↔ normalize E data = .ok a := by
  have hg : analyzeGuard s = false := (analyzeGuard_eq_false_iff s).mpr hpre
  have htry := analyzeTry_ok_json E resp data hok hjson
  rw [analyzeCall_of_guard_false E s _ hg]
  cases hnorm : normalize E data with
  | ok b =>
    rw [analyzeFinish_ok E _ _ b (htry.trans hnorm)]
    constructor
    · intro h
      exact congrArg Except.ok (Option.some.inj h)
    · intro h
      exact congrArg some (Except.ok.inj h)
  | error m =>
    rw [analyzeFinish_error E _ _ m (htry.trans hnorm)]
    constructor
    · intro h
      cases h
    · intro h
      cases h

/-- For an OK response with a parsed body: the entry that evaluates to `x` is
what any stored analysis carries, and an analysis is stored when the response
is normalizable. -/
theorem stored_entry (E : Engine) (s : State) (resp : Response) (data : JSValue)
    (key fallback : String) (field : Analysis → JSValue) (x : JSValue)
    (hpre : s.file ≠ none ∧ s.backendStatus = .connected)
    (hok : resp.ok = true) (hjson : resp.json = .ok data)
    (hfield : ∀ a, normalize E data = .ok a → summaryField E data key fallback = .ok (field a))
    (hentry : summaryField E data key fallback = .ok x) :
    summaryField E data key fallback = .ok x ∧
      (∀ a, (analyzeCall E s (.resolved resp)).analysis = some a → field a = x) ∧
      (Normalizable data →
        ∃ a, (analyzeCall E s (.resolved resp)).analysis = some a ∧ field a = x) := by
  have hstored : ∀ a, (analyzeCall E s (.resolved resp)).analysis = some a → field a = x := by
    intro a ha
    have hnorm := (stored_iff E s resp data a hpre hok hjson).mp ha
    exact Except.ok.inj ((hfield a hnorm).symm.trans hentry)
  refine ⟨hentry, hstored, ?_⟩
  intro hN
  obtain ⟨a, ha⟩ := (normalize_ok_iff E data).mpr hN
  have hst := (stored_iff E s resp data a hpre hok hjson).mpr ha
  exact ⟨a, hst, hstored a hst⟩

/-! ## Facts about the sample inputs -/

theorem readyState_passes_guard :
    readyState.file ≠ none ∧ readyState.backendStatus = .connected :=
  ⟨by simp [readyState], rfl⟩

theorem sampleResponse_normalizable : Normalizable sampleResponse := by
  refine ⟨fun hc => JSValue.noConfusion hc, fun hc => JSValue.noConfusion hc, ?_⟩
  rintro key hkey items ⟨fields, es, hdata, hes, hitems⟩
  simp only [sampleResponse, JSValue.obj.injEq] at hdata
  subst hdata
  simp [lookup] at hes
  subst hes
  simp only [summaryKeys, List.mem_cons, List.mem_singleton, List.not_mem_nil, or_false] at hkey
  rcases hkey with rfl | rfl | rfl | rfl <;> simp [lookup] at hitems
  · subst hitems
    rfl
  · subst hitems
    rfl

theorem emptyObject_normalizable : Normalizable (.obj []) := by
  refine ⟨fun hc => JSValue.noConfusion hc, fun hc => JSValue.noConfusion hc, ?_⟩
  rintro key _ items ⟨fields, es, hdata, hes, _⟩
  simp only [JSValue.obj.injEq] at hdata
  subst hdata
  simp [lookup] at hes

/-! ## The four text fields of the executive summary -/

/-- C3: let `analyzeCall` run in a state that passes its guard, on an OK
response whose body parses to `data`. For each of the four executive-summary
fields, when `data` holds a sequence of texts for the field, the entry of the
object literal evaluates to the texts in their order with one newline between
consecutive texts (the empty text for the empty sequence), every analysis that
is stored carries that text in the field, and an analysis is stored when the
response is normalizable. -/
theorem summary_sequence_joined (E : Engine) (s : State) (resp : Response) (data : JSValue)
    (items : List String)
    (hpre : s.file ≠ none ∧ s.backendStatus = .connected)
    (hok : resp.ok = true) (hjson : resp.json = .ok data) :
    (SummaryHolds data "what_went_well" (.arr (items.map JSValue.str)) →
      summaryField E data "what_went_well" "Good analysis complete" = .ok (.str (joinLines items)) ∧
        (∀ a, (analyzeCall E s (.resolved resp)).analysis = some a →
          a.what_went_well = .str (joinLines items)) ∧
        (Normalizable data →
          ∃ a, (analyzeCall E s (.resolved resp)).analysis = some a ∧
            a.what_went_well = .str (joinLines items))) ∧
    (SummaryHolds data "improvements" (.arr (items.map JSValue.str)) →
      summaryField E data "improvements" "No issues detected" = .ok (.str (joinLines items)) ∧
        (∀ a, (analyzeCall E s (.resolved resp)).analysis = some a →
          a.improvements = .str (joinLines items)) ∧
        (Normalizable data →
          ∃ a, (analyzeCall E s (.resolved resp)).analysis = some a ∧
            a.improvements = .str (joinLines items))) ∧
    (SummaryHolds data "missed_opportunities" (.arr (items.map JSValue.str)) →
      summaryField E data "missed_opportunities" "None identified" = .ok (.str (joinLines items)) ∧
        (∀ a, (analyzeCall E s (.resolved resp)).analysis = some a →
          a.missed_opportunities = .str (joinLines items)) ∧
        (Normalizable data →
          ∃ a, (analyzeCall E s (.resolved resp)).analysis = some a ∧
            a.missed_opportunities = .str (joinLines items))) ∧
    (SummaryHolds data "recommended_actions" (.arr (items.map JSValue.str)) →
      summaryField E data "recommended_actions" "Follow up recommended" = .ok (.str (joinLines items)) ∧
        (∀ a, (analyzeCall E s (.resolved resp)).analysis = some a →
          a.next_actions = .str (joinLines items)) ∧
        (Normalizable data →
          ∃ a, (analyzeCall E s (.resolved resp)).analysis = some a ∧
            a.next_actions = .str (joinLines items))) ∧
    joinLines [] = "" := by
  refine ⟨?_, ?_, ?_, ?_, rfl⟩
  · intro h
    exact stored_entry E s resp data "what_went_well" "Good analysis complete"
      (fun a => a.what_went_well) _ hpre hok hjson
      (fun a ha => (normalize_ok_fields E data a ha).2.1)
      (entry_of_raw E data "what_went_well" "Good analysis complete" _ _
        (summaryRaw_of_holds E data _ _ h) (summaryText_sequence E items _))
  · intro h
    exact stored_entry E s resp data "improvements" "No issues detected"
      (fun a => a.improvements) _ hpre hok hjson
      (fun a ha => (normalize_ok_fields E data a ha).2.2.1)
      (entry_of_raw E data "improvements" "No issues detected" _ _
        (summaryRaw_of_holds E data _ _ h) (summaryText_sequence E items _))
  · intro h
    exact stored_entry E s resp data "missed_opportunities" "None identified"
      (fun a => a.missed_opportunities) _ hpre hok hjson
      (fun a ha => (normalize_ok_fields E data a ha).2.2.2.1)
      (entry_of_raw E data "missed_opportunities" "None identified" _ _
        (summaryRaw_of_holds E data _ _ h) (summaryText_sequence E items _))
  · intro h
    exact stored_entry E s resp data "recommended_actions" "Follow up recommended"
      (fun a => a.next_actions) _ hpre hok hjson
      (fun a ha => (normalize_ok_fields E data a ha).2.2.2.2)
      (entry_of_raw E data "recommended_actions" "Follow up recommended" _ _
        (summaryRaw_of_holds E data _ _ h) (summaryText_sequence E items _))

/-- C5: let `analyzeCall` run in a state that passes its guard, on an OK
response whose body parses to `data`. For each of the four executive-summary
fields, when `data` holds a text for the field, whatever the text (empty, or
with newlines in it), the entry of the object literal evaluates to that same
text, every analysis that is stored carries it in the field, and an analysis
is stored when the response is normalizable. -/
theorem summary_text_unchanged (E : Engine) (s : State) (resp : Response) (data : JSValue)
    (t : String)
    (hpre : s.file ≠ none ∧ s.backendStatus = .connected)
    (hok : resp.ok = true) (hjson : resp.json = .ok data) :
    (SummaryHolds data "what_went_well" (.str t) →
      summaryField E data "what_went_well" "Good analysis complete" = .ok (.str t) ∧
        (∀ a, (analyzeCall E s (.resolved resp)).analysis = some a →
          a.what_went_well = .str t) ∧
        (Normalizable data →
          ∃ a, (analyzeCall E s (.resolved resp)).analysis = some a ∧
            a.what_went_well = .str t)) ∧
    (SummaryHolds data "improvements" (.str t) →
      summaryField E data "improvements" "No issues detected" = .ok (.str t) ∧
        (∀ a, (analyzeCall E s (.resolved resp)).analysis = some a →
          a.improvements = .str t) ∧
        (Normalizable data →
          ∃ a, (analyzeCall E s (.resolved resp)).analysis = some a ∧
            a.improvements = .str t)) ∧
    (SummaryHolds data "missed_opportunities" (.str t) →
      summaryField E data "missed_opportunities" "None identified" = .ok (.str t) ∧
        (∀ a, (analyzeCall E s (.resolved resp)).analysis = some a →
          a.missed_opportunities = .str t) ∧
        (Normalizable data →
          ∃ a, (analyzeCall E s (.resolved resp)).analysis = some a ∧
            a.missed_opportunities = .str t)) ∧
    (SummaryHolds data "recommended_actions" (.str t) →
      summaryField E data "recommended_actions" "Follow up recommended" = .ok (.str t) ∧
        (∀ a, (analyzeCall E s (.resolved resp)).analysis = some a →
          a.next_actions = .str t) ∧
        (Normalizable data →
          ∃ a, (analyzeCall E s (.resolved resp)).analysis = some a ∧
            a.next_actions = .str t)) := by
  refine ⟨?_, ?_, ?_, ?_⟩
  · intro h
    exact stored_entry E s resp data "what_went_well" "Good analysis complete"
      (fun a => a.what_went_well) _ hpre hok hjson
      (fun a ha => (normalize_ok_fields E data a ha).2.1)
      (entry_of_raw E data "what_went_well" "Good analysis complete" _ _
        (summaryRaw_of_holds E data _ _ h) (summaryText_text E t _))
  · intro h
    exact stored_entry E s resp data "improvements" "No issues detected"
      (fun a => a.improvements) _ hpre hok hjson
      (fun a ha => (normalize_ok_fields E data a ha).2.2.1)
      (entry_of_raw E data "improvements" "No issues detected" _ _
        (summaryRaw_of_holds E data _ _ h) (summaryText_text E t _))
  · intro h
    exact stored_entry E s resp data "missed_opportunities" "None identified"
      (fun a => a.missed_opportunities) _ hpre hok hjson
      (fun a ha => (normalize_ok_fields E data a ha).2.2.2.1)
      (entry_of_raw E data "missed_opportunities" "None identified" _ _
        (summaryRaw_of_holds E data _ _ h) (summaryText_text E t _))
  · intro h
    exact stored_entry E s resp data "recommended_actions" "Follow up recommended"
      (fun a => a.next_actions) _ hpre hok hjson
      (fun a ha => (normalize_ok_fields E data a ha).2.2.2.2)
      (entry_of_raw E data "recommended_actions" "Follow up recommended" _ _
        (summaryRaw_of_holds E data _ _ h) (summaryText_text E t _))

/-- The conditional yields the fallback for a field that is absent from a
response other than `null`, and for a value of another type. -/
theorem entry_fallback (E : Engine) (data : JSValue) (key fallback : String)
    (hn : data ≠ .null) (hu : data ≠ .undefined)
    (h : FieldAbsent data key ∨ ∃ v, SummaryHolds data key v ∧ OtherType v) :
    summaryField E data key fallback = .ok (.str fallback) := by
  rcases h with h | ⟨v, hv, ht⟩
  · exact entry_of_raw E data _ _ _ _ (summaryRaw_of_absent E data key hn hu h)
      (summaryText_undefined E _)
  · exact entry_of_raw E data _ _ _ _ (summaryRaw_of_holds E data key v hv)
      (summaryText_otherType E v _ ht)

/-- C4, as the code has it: let `analyzeCall` run in a state that passes its
guard, on an OK response whose body parses to a value `data` other than `null`
(and other than `undefined`, which no JSON text parses to). For each of the
four executive-summary fields, when the field is absent from `data` (the whole
executive summary may be absent) or `data` holds for it a value that is neither
a sequence nor a text, the entry of the object literal evaluates to the
fallback text of the field, every analysis that is stored carries the fallback
in the field, and an analysis is stored when the response is normalizable. -/
theorem summary_fallback (E : Engine) (s : State) (resp : Response) (data : JSValue)
    (hpre : s.file ≠ none ∧ s.backendStatus = .connected)
    (hok : resp.ok = true) (hjson : resp.json = .ok data)
    (hn : data ≠ .null) (hu : data ≠ .undefined) :
    ((FieldAbsent data "what_went_well" ∨
        ∃ v, SummaryHolds data "what_went_well" v ∧ OtherType v) →
      summaryField E data "what_went_well" "Good analysis complete" = .ok (.str "Good analysis complete") ∧
        (∀ a, (analyzeCall E s (.resolved resp)).analysis = some a →
          a.what_went_well = .str "Good analysis complete") ∧
        (Normalizable data →
          ∃ a, (analyzeCall E s (.resolved resp)).analysis = some a ∧
            a.what_went_well = .str "Good analysis complete")) ∧
    ((FieldAbsent data "improvements" ∨
        ∃ v, SummaryHolds data "improvements" v ∧ OtherType v) →
      summaryField E data "improvements" "No issues detected" = .ok (.str "No issues detected") ∧
        (∀ a, (analyzeCall E s (.resolved resp)).analysis = some a →
          a.improvements = .str "No issues detected") ∧
        (Normalizable data →
          ∃ a, (analyzeCall E s (.resolved resp)).analysis = some a ∧
            a.improvements = .str "No issues detected")) ∧
    ((FieldAbsent data "missed_opportunities" ∨
        ∃ v, SummaryHolds data "missed_opportunities" v ∧ OtherType v) →
      summaryField E data "missed_opportunities" "None identified" = .ok (.str "None identified") ∧
        (∀ a, (analyzeCall E s (.resolved resp)).analysis = some a →
          a.missed_opportunities = .str "None identified") ∧
        (Normalizable data →
          ∃ a, (analyzeCall E s (.resolved resp)).analysis = some a ∧
            a.missed_opportunities = .str "None identified")) ∧
    ((FieldAbsent data "recommended_actions" ∨
        ∃ v, SummaryHolds data "recommended_actions" v ∧ OtherType v) →
      summaryField E data "recommended_actions" "Follow up recommended" = .ok (.str "Follow up recommended") ∧
        (∀ a, (analyzeCall E s (.resolved resp)).analysis = some a →
          a.next_actions = .str "Follow up recommended") ∧
        (Normalizable data →
          ∃ a, (analyzeCall E s (.resolved resp)).analysis = some a ∧
            a.next_actions = .str "Follow up recommended")) := by
  refine ⟨?_, ?_, ?_, ?_⟩
  · intro h
    exact stored_entry E s resp data "what_went_well" "Good analysis complete"
      (fun a => a.what_went_well) _ hpre hok hjson
      (fun a ha => (normalize_ok_fields E data a ha).2.1)
      (entry_fallback E data "what_went_well" "Good analysis complete" hn hu h)
  · intro h
    exact stored_entry E s resp data "improvements" "No issues detected"
      (fun a => a.improvements) _ hpre hok hjson
      (fun a ha => (normalize_ok_fields E data a ha).2.2.1)
      (entry_fallback E data "improvements" "No issues detected" hn hu h)
  · intro h
    exact stored_entry E s resp data "missed_opportunities" "None identified"
      (fun a => a.missed_opportunities) _ hpre hok hjson
      (fun a ha => (normalize_ok_fields E data a ha).2.2.2.1)
      (entry_fallback E data "missed_opportunities" "None identified" hn hu h)
  · intro h
    exact stored_entry E s resp data "recommended_actions" "Follow up recommended"
      (fun a => a.next_actions) _ hpre hok hjson
      (fun a ha => (normalize_ok_fields E data a ha).2.2.2.2)
      (entry_fallback E data "recommended_actions" "Follow up recommended" hn hu h)

theorem summary_sequence_joined_witness :
    SummaryHolds sampleResponse "what_went_well"
        (.arr (["Good pacing", "Clear ask"].map JSValue.str)) ∧
      SummaryHolds sampleResponse "improvements" (.arr (([] : List String).map JSValue.str)) ∧
      (∃ a, (analyzeCall sampleEngine readyState (.resolved (okResponse sampleResponse))).analysis
          = some a ∧ a.what_went_well = .str "Good pacing\nClear ask") ∧
      ∃ a, (analyzeCall sampleEngine readyState (.resolved (okResponse sampleResponse))).analysis
          = some a ∧ a.improvements = .str "" :=
  have h1 : SummaryHolds sampleResponse "what_went_well"
      (.arr (["Good pacing", "Clear ask"].map JSValue.str)) := ⟨_, _, rfl, rfl, rfl⟩
  have h2 : SummaryHolds sampleResponse "improvements"
      (.arr (([] : List String).map JSValue.str)) := ⟨_, _, rfl, rfl, rfl⟩
  ⟨h1, h2,
    ((summary_sequence_joined sampleEngine readyState (okResponse sampleResponse) sampleResponse
      ["Good pacing", "Clear ask"] readyState_passes_guard rfl rfl).1 h1).2.2
      sampleResponse_normalizable,
    ((summary_sequence_joined sampleEngine readyState (okResponse sampleResponse) sampleResponse
      [] readyState_passes_guard rfl rfl).2.1 h2).2.2 sampleResponse_normalizable⟩

theorem summary_text_unchanged_witness :
    SummaryHolds sampleResponse "missed_opportunities" (.str "Upsell\nReferral") ∧
      ∃ a, (analyzeCall sampleEngine readyState (.resolved (okResponse sampleResponse))).analysis
          = some a ∧ a.missed_opportunities = .str "Upsell\nReferral" :=
  have h : SummaryHolds sampleResponse "missed_opportunities" (.str "Upsell\nReferral") :=
    ⟨_, _, rfl, rfl, rfl⟩
  ⟨h,
    ((summary_text_unchanged sampleEngine readyState (okResponse sampleResponse) sampleResponse
      "Upsell\nReferral" readyState_passes_guard rfl rfl).2.2.1 h).2.2
      sampleResponse_normalizable⟩

theorem summary_fallback_witness :
    (SummaryHolds sampleResponse "recommended_actions" (.num 3) ∧ OtherType (.num 3)) ∧
      FieldAbsent (.obj []) "improvements" ∧
      (∃ a, (analyzeCall sampleEngine readyState (.resolved (okResponse sampleResponse))).analysis
          = some a ∧ a.next_actions = .str "Follow up recommended") ∧
      ∃ a, (analyzeCall sampleEngine readyState (.resolved (okResponse (.obj [])))).analysis
          = some a ∧ a.improvements = .str "No issues detected" :=
  have h : SummaryHolds sampleResponse "recommended_actions" (.num 3) := ⟨_, _, rfl, rfl, rfl⟩
  ⟨⟨h, trivial⟩, trivial,
    ((summary_fallback sampleEngine readyState (okResponse sampleResponse) sampleResponse
      readyState_passes_guard rfl rfl (fun hc => JSValue.noConfusion hc)
      (fun hc => JSValue.noConfusion hc)).2.2.2 (Or.inr ⟨_, h, trivial⟩)).2.2
      sampleResponse_normalizable,
    ((summary_fallback sampleEngine readyState (okResponse (.obj [])) (.obj [])
      readyState_passes_guard rfl rfl (fun hc => JSValue.noConfusion hc)
      (fun hc => JSValue.noConfusion hc)).2.1 (Or.inl trivial)).2.2
      emptyObject_normalizable⟩

/-- C4, the claim fails at the response `null`: every field is absent from it,
yet the entry throws instead of yielding the fallback, and no analysis is
stored. -/
theorem summary_fallback_fails_on_null :
    FieldAbsent .null "improvements" ∧
      summaryField sampleEngine .null "improvements" "No issues detected"
        = .error "Cannot read properties of null (reading 'executive_summary')" ∧
      (analyzeCall sampleEngine readyState (.resolved (okResponse .null))).analysis = none :=
  ⟨trivial, rfl, rfl⟩

/-! ## The score -/

theorem jsOr_of_truthy (a b : JSValue) (h : truthy a = true) : jsOr a b = a := by
  simp [jsOr, h]

theorem jsOr_of_falsy (a b : JSValue) (h : truthy a = false) : jsOr a b = b := by
  simp [jsOr, h]

theorem score_of_holds (E : Engine) (data : JSValue) (a : Analysis) (v : JSValue)
    (ha : normalize E data = .ok a) (hv : SummaryHolds data "overall_score" v) :
    a.overall_score = jsOr v (.num (13 / 2)) := by
  obtain ⟨score, hscore, hr⟩ := (normalize_ok_fields E data a ha).1
  have hs : score = v :=
    Except.ok.inj (hscore.symm.trans (summaryRaw_of_holds E data _ v hv))
  rw [hr, hs]

theorem score_of_absent (E : Engine) (data : JSValue) (a : Analysis)
    (ha : normalize E data = .ok a) (hv : FieldAbsent data "overall_score") :
    a.overall_score = .num (13 / 2) := by
  obtain ⟨hn, hu, _⟩ := (normalize_ok_iff E data).mp ⟨a, ha⟩
  obtain ⟨score, hscore, hr⟩ := (normalize_ok_fields E data a ha).1
  have hs : score = .undefined :=
    Except.ok.inj (hscore.symm.trans (summaryRaw_of_absent E data _ hn hu hv))
  rw [hr, hs]
  rfl

/-- C6, as the code has it: let `analyzeCall` run in a state that passes its
guard, on an OK response whose body parses to `data`. An analysis is stored
when the response is normalizable, and in every analysis that is stored the
score is 6.5 when `overall_score` is absent from `data` (the whole executive
summary may be absent) and when `data` holds for it the number 0, `null`,
`false` or the empty text; it is the number `data` holds for every number
other than 0, and the value `data` holds when that is `true`, a non-empty
text, a sequence or an object. -/
theorem overall_score_default (E : Engine) (s : State) (resp : Response) (data : JSValue)
    (hpre : s.file ≠ none ∧ s.backendStatus = .connected)
    (hok : resp.ok = true) (hjson : resp.json = .ok data) :
    (Normalizable data → ∃ a, (analyzeCall E s (.resolved resp)).analysis = some a) ∧
      ∀ a, (analyzeCall E s (.resolved resp)).analysis = some a →
        (FieldAbsent data "overall_score" → a.overall_score = .num (13 / 2)) ∧
        (∀ n : Rat, SummaryHolds data "overall_score" (.num n) → n ≠ 0 →
          a.overall_score = .num n) ∧
        (SummaryHolds data "overall_score" (.num 0) → a.overall_score = .num (13 / 2)) ∧
        (SummaryHolds data "overall_score" .null → a.overall_score = .num (13 / 2)) ∧
        (SummaryHolds data "overall_score" (.bool false) → a.overall_score = .num (13 / 2)) ∧
        (SummaryHolds data "overall_score" (.str "") → a.overall_score = .num (13 / 2)) ∧
        (SummaryHolds data "overall_score" (.bool true) → a.overall_score = .bool true) ∧
        (∀ t : String, SummaryHolds data "overall_score" (.str t) → t ≠ "" →
          a.overall_score = .str t) ∧
        (∀ items, SummaryHolds data "overall_score" (.arr items) →
          a.overall_score = .arr items) ∧
        (∀ fields, SummaryHolds data "overall_score" (.obj fields) →
          a.overall_score = .obj fields) := by
  constructor
  · intro hN
    obtain ⟨a, ha⟩ := (normalize_ok_iff E data).mpr hN
    exact ⟨a, (stored_iff E s resp data a hpre hok hjson).mpr ha⟩
  · intro a hst
    have ha := (stored_iff E s resp data a hpre hok hjson).mp hst
    refine ⟨?_, ?_, ?_, ?_, ?_, ?_, ?_, ?_, ?_, ?_⟩
    · exact score_of_absent E data a ha
    · intro n hv hne
      rw [score_of_holds E data a _ ha hv]
      exact jsOr_of_truthy _ _ (by simp [truthy, hne])
    · intro hv
      rw [score_of_holds E data a _ ha hv]
      exact jsOr_of_falsy _ _ (by simp [truthy])
    · intro hv
      rw [score_of_holds E data a _ ha hv]
      rfl
    · intro hv
      rw [score_of_holds E data a _ ha hv]
      rfl
    · intro hv
      rw [score_of_holds E data a _ ha hv]
      exact jsOr_of_falsy _ _ (by simp [truthy])
    · intro hv
      rw [score_of_holds E data a _ ha hv]
      rfl
    · intro t hv hne
      rw [score_of_holds E data a _ ha hv]
      exact jsOr_of_truthy _ _ (by simp [truthy, hne])
    · intro items hv
      rw [score_of_holds E data a _ ha hv]
      rfl
    · intro fields hv
      rw [score_of_holds E data a _ ha hv]
      rfl

theorem overall_score_default_witness :
    SummaryHolds sampleResponse "overall_score" (.num 8) ∧
      ∃ a, (analyzeCall sampleEngine readyState (.resolved (okResponse sampleResponse))).analysis
          = some a ∧ a.overall_score = .num 8 :=
  have h : SummaryHolds sampleResponse "overall_score" (.num 8) := ⟨_, _, rfl, rfl, rfl⟩
  have hthm := overall_score_default sampleEngine readyState (okResponse sampleResponse)
    sampleResponse readyState_passes_guard rfl rfl
  ⟨h, (hthm.1 sampleResponse_normalizable).elim fun a ha =>
    ⟨a, ha, (hthm.2 a ha).2.1 8 h (by norm_num)⟩⟩

/-- C6, the claim fails at the score 0: the response carries the numeric score
0 and the normalised score is 6.5, not 0. -/
theorem overall_score_zero_replaced :
    summaryRaw sampleEngine scoreZeroResponse "overall_score" = .ok (.num 0) ∧
      ∃ r, normalize sampleEngine scoreZeroResponse = .ok r ∧
        r.overall_score = .num (13 / 2) ∧ r.overall_score ≠ .num 0 := by
  have hval : jsOr (.num 0) (.num (13 / 2)) = .num (13 / 2) :=
    jsOr_of_falsy (.num 0) _ (by simp [truthy])
  refine ⟨rfl, _, rfl, hval, ?_⟩
  intro hcontra
  have h2 : JSValue.num (13 / 2) = .num 0 := hval.symm.trans hcontra
  injection h2 with h3
  norm_num at h3

/-! ## The outcomes of `analyzeCall` -/

/-- C2, as the code has it: when a file is selected and the status is
`connected`, then after `analyzeCall` the loading flag is false and exactly one
of analysis and error is set, whatever the outcome of the request. A rejected
request (network exception), a non-OK response and a body that does not parse
leave a null analysis and the non-empty error text built from the failure. An
OK response whose body parses leaves an analysis and an empty error when the
parsed value is normalizable, and a null analysis and a non-empty error when it
is not, as for the body `null`. -/
theorem analyzeCall_sets_exactly_one (E : Engine) (s : State) (o : FetchOutcome)
    (hpre : s.file ≠ none ∧ s.backendStatus = .connected) :
    (analyzeCall E s o).loading = false ∧
      (((analyzeCall E s o).analysis ≠ none ∧ (analyzeCall E s o).error = "") ∨
        ((analyzeCall E s o).analysis = none ∧ (analyzeCall E s o).error ≠ "")) ∧
      (∀ m, o = .rejected m →
        (analyzeCall E s o).analysis = none ∧
          (analyzeCall E s o).error = "Analysis failed: " ++ m ∧
          (analyzeCall E s o).error ≠ "") ∧
      (∀ resp, o = .resolved resp → resp.ok = false →
        (analyzeCall E s o).analysis = none ∧
          (analyzeCall E s o).error = "Analysis failed: HTTP " ++ toString resp.status ∧
          (analyzeCall E s o).error ≠ "") ∧
      (∀ resp m, o = .resolved resp → resp.ok = true → resp.json = .error m →
        (analyzeCall E s o).analysis = none ∧
          (analyzeCall E s o).error = "Analysis failed: " ++ m ∧
          (analyzeCall E s o).error ≠ "") ∧
      (∀ resp data, o = .resolved resp → resp.ok = true → resp.json = .ok data →
        Normalizable data →
        (analyzeCall E s o).analysis ≠ none ∧ (analyzeCall E s o).error = "") ∧
      (∀ resp data, o = .resolved resp → resp.ok = true → resp.json = .ok data →
        ¬ Normalizable data →
        (analyzeCall E s o).analysis = none ∧ (analyzeCall E s o).error ≠ "") := by
  have hg : analyzeGuard s = false := (analyzeGuard_eq_false_iff s).mpr hpre
  have hfail : ∀ m, analyzeTry E o = .error m →
      (analyzeCall E s o).analysis = none ∧
        (analyzeCall E s o).error = "Analysis failed: " ++ m ∧
        (analyzeCall E s o).error ≠ "" := by
    intro m hm
    rw [analyzeCall_of_guard_false E s o hg, analyzeFinish_error E _ o m hm]
    exact ⟨rfl, rfl, failure_text_ne_empty m⟩
  have hsucc : ∀ a, analyzeTry E o = .ok a →
      (analyzeCall E s o).analysis = some a ∧ (analyzeCall E s o).error = "" := by
    intro a ha
    rw [analyzeCall_of_guard_false E s o hg, analyzeFinish_ok E _ o a ha]
    exact ⟨rfl, rfl⟩
  refine ⟨?_, ?_, ?_, ?_, ?_, ?_, ?_⟩
  · rw [analyzeCall_of_guard_false E s o hg]
    exact analyzeFinish_loading E _ o
  · cases hres : analyzeTry E o with
    | ok a =>
      obtain ⟨h1, h2⟩ := hsucc a hres
      exact Or.inl ⟨by rw [h1]; simp, h2⟩
    | error m =>
      obtain ⟨h1, _, h3⟩ := hfail m hres
      exact Or.inr ⟨h1, h3⟩
  · intro m ho
    apply hfail
    rw [ho]
    rfl
  · intro resp ho hok
    have htry : analyzeTry E o = .error ("HTTP " ++ toString resp.status) := by
      rw [ho]
      simp [analyzeTry, hok]
    obtain ⟨h1, h2, h3⟩ := hfail _ htry
    refine ⟨h1, ?_, h3⟩
    rw [h2, ← String.append_assoc]
    rfl
  · intro resp m ho hok hjson
    apply hfail
    rw [ho]
    simp [analyzeTry, hok, hjson]
  · intro resp data ho hok hjson hN
    obtain ⟨a, ha⟩ := (normalize_ok_iff E data).mpr hN
    have htry : analyzeTry E o = .ok a := by
      rw [ho, analyzeTry_ok_json E resp data hok hjson, ha]
    obtain ⟨h1, h2⟩ := hsucc a htry
    exact ⟨by rw [h1]; simp, h2⟩
  · intro resp data ho hok hjson hN
    cases hnorm : normalize E data with
    | ok a => exact absurd ((normalize_ok_iff E data).mp ⟨a, hnorm⟩) hN
    | error m =>
      have htry : analyzeTry E o = .error m := by
        rw [ho, analyzeTry_ok_json E resp data hok hjson, hnorm]
      obtain ⟨h1, _, h3⟩ := hfail m htry
      exact ⟨h1, h3⟩

theorem analyzeCall_sets_exactly_one_witness :
    (readyState.file ≠ none ∧ readyState.backendStatus = .connected) ∧
      ((analyzeCall sampleEngine readyState (.rejected "Failed to fetch")).analysis = none ∧
        (analyzeCall sampleEngine readyState (.rejected "Failed to fetch")).error
          = "Analysis failed: Failed to fetch") ∧
      ((analyzeCall sampleEngine readyState
          (.resolved { ok := true, status := 200, json := .error "Unexpected token" })).analysis
          = none ∧
        (analyzeCall sampleEngine readyState
          (.resolved { ok := true, status := 200, json := .error "Unexpected token" })).error
          = "Analysis failed: Unexpected token") ∧
      ((analyzeCall sampleEngine readyState (.resolved (okResponse sampleResponse))).analysis
          ≠ none ∧
        (analyzeCall sampleEngine readyState (.resolved (okResponse sampleResponse))).error
          = "") :=
  have h1 := (analyzeCall_sets_exactly_one sampleEngine readyState (.rejected "Failed to fetch")
    readyState_passes_guard).2.2.1 _ rfl
  have h2 := (analyzeCall_sets_exactly_one sampleEngine readyState
    (.resolved { ok := true, status := 200, json := .error "Unexpected token" })
    readyState_passes_guard).2.2.2.2.1 _ _ rfl rfl rfl
  have h3 := (analyzeCall_sets_exactly_one sampleEngine readyState
    (.resolved (okResponse sampleResponse)) readyState_passes_guard).2.2.2.2.2.1 _ _ rfl rfl rfl
    sampleResponse_normalizable
  ⟨readyState_passes_guard, ⟨h1.1, h1.2.1⟩, ⟨h2.1, h2.2.1⟩, h3⟩

/-- C2, the claim fails at an OK response whose body is the JSON text `null`:
the body parses, yet the call ends as a failure, with a null analysis and a
non-empty error. -/
theorem ok_null_body_is_failure :
    (okResponse .null).ok = true ∧ (okResponse .null).json = .ok .null ∧
      (analyzeCall sampleEngine readyState (.resolved (okResponse .null))).analysis = none ∧
      (analyzeCall sampleEngine readyState (.resolved (okResponse .null))).error
        = "Analysis failed: Cannot read properties of null (reading 'transcript')" ∧
      (analyzeCall sampleEngine readyState (.resolved (okResponse .null))).error ≠ "" :=
  ⟨rfl, rfl, rfl, rfl, by decide⟩

/-- A response other than `null` that is not normalizable: a sequence holds an
object that has no text form; the call ends as a failure although the first
field is a sequence of texts. -/
theorem unconvertible_element_is_failure :
    SummaryHolds unconvertibleResponse "what_went_well" (.arr (["Good pacing"].map JSValue.str)) ∧
      (analyzeCall sampleEngine readyState
        (.resolved (okResponse unconvertibleResponse))).analysis = none ∧
      (analyzeCall sampleEngine readyState
        (.resolved (okResponse unconvertibleResponse))).error
        = "Analysis failed: Cannot convert object to primitive value" :=
  ⟨⟨_, _, rfl, rfl, rfl⟩, rfl, rfl⟩

/-! ## Events while a request is pending -/

theorem step_keeps_cleared (E : Engine) (p : Page) (e : Event)
    (he : isCompletion e = false)
    (h : p.ui.loading = true ∧ p.ui.analysis = none ∧ p.ui.error = "" ∧ p.pending = 1) :
    (step E p e).ui.loading = true ∧ (step E p e).ui.analysis = none ∧
      (step E p e).ui.error = "" ∧ (step E p e).pending = 1 := by
  obtain ⟨hl, ha, herr, hp⟩ := h
  cases e with
  | probe o =>
    cases o with
    | networkError => exact ⟨hl, ha, herr, hp⟩
    | aborted => exact ⟨hl, ha, herr, hp⟩
    | response ok =>
      cases ok
      · exact ⟨hl, ha, herr, hp⟩
      · exact ⟨hl, ha, rfl, hp⟩
  | fileChange c =>
    cases c with
    | none => exact ⟨hl, ha, herr, hp⟩
    | some f =>
      simp only [step, handleFileChange]
      split
      · exact ⟨hl, rfl, rfl, hp⟩
      · exact ⟨hl, ha, herr, hp⟩
  | click =>
    simp only [step, buttonDisabled_of_loading p.ui hl, if_true]
    exact ⟨hl, ha, herr, hp⟩
  | analysisDone o => exact absurd he (by simp [isCompletion])

/-- The probes, file selections and clicks that happen between the sending of
the analyse request and its end do not change what the end of `analyzeCall`
leaves: the loading flag false and exactly one of analysis and error set. -/
theorem analyzeFinish_after_events (E : Engine) (s : State) (events : List Event)
    (o : FetchOutcome) (hev : ∀ e ∈ events, isCompletion e = false) :
    (run E { ui := analyzeStart s, pending := 1 } events).pending = 1 ∧
      (analyzeFinish E (run E { ui := analyzeStart s, pending := 1 } events).ui o).loading
        = false ∧
      (∀ a, analyzeTry E o = .ok a →
        (analyzeFinish E (run E { ui := analyzeStart s, pending := 1 } events).ui o).analysis
            = some a ∧
          (analyzeFinish E (run E { ui := analyzeStart s, pending := 1 } events).ui o).error
            = "") ∧
      (∀ m, analyzeTry E o = .error m →
        (analyzeFinish E (run E { ui := analyzeStart s, pending := 1 } events).ui o).analysis
            = none ∧
          (analyzeFinish E (run E { ui := analyzeStart s, pending := 1 } events).ui o).error
            = "Analysis failed: " ++ m) := by
  have hinv : ∀ (evs : List Event) (p : Page), (∀ e ∈ evs, isCompletion e = false) →
      (p.ui.loading = true ∧ p.ui.analysis = none ∧ p.ui.error = "" ∧ p.pending = 1) →
      ((run E p evs).ui.loading = true ∧ (run E p evs).ui.analysis = none ∧
        (run E p evs).ui.error = "" ∧ (run E p evs).pending = 1) := by
    intro evs
    induction evs with
    | nil => intro p _ h; exact h
    | cons e rest ih =>
      intro p hall h
      exact ih (step E p e) (fun x hx => hall x (List.mem_cons_of_mem _ hx))
        (step_keeps_cleared E p e (hall e (List.mem_cons_self _ _)) h)
  obtain ⟨_, ha, herr, hp⟩ :=
    hinv events { ui := analyzeStart s, pending := 1 } hev ⟨rfl, rfl, rfl, rfl⟩
  refine ⟨hp, analyzeFinish_loading E _ o, ?_, ?_⟩
  · intro a hres
    rw [analyzeFinish_ok E _ o a hres]
    exact ⟨rfl, herr⟩
  · intro m hres
    rw [analyzeFinish_error E _ o m hres]
    exact ⟨ha, rfl⟩

end SalesApp
